import Mathlib

/-!
Verification of the DigitalOcean Spaces upload tasks
(`src/Tasks/DigitalOceanSpacesUpload/utils/Spaces.ts`).

The file shallowly embeds the two uploader classes found in the source:
the minimal `Spaces` class (`upload`, `normalizeKeyPath`) and the typed
`Upload` class (`init`, `normalizeKeyPath`, `knownMimeTypes`, and the
inline content-type resolution of `init`).

JavaScript strings are modelled as `List Char` (`JStr`).  The Node
`path` module is modelled with its POSIX semantics (`path.sep = '/'`),
following the algorithms of Node's `lib/path.js`: `posixNormalize`
models `path.posix.normalize`, `posixJoin` models two-argument
`path.posix.join`, `posixBasename` models `path.posix.basename` (no
suffix argument) and `posixExtname` models `path.posix.extname`.
Truthiness of the optional string parameters (`digitalTargetFolder`,
`digitalContentType`) is JavaScript truthiness: the empty string is
falsy, every other string truthy.
-/

/-- A JavaScript string, modelled as its list of characters. -/
abbrev JStr := List Char

/-- One character of `targetPath.replace(/\\/g, '/')` (Spaces.ts line 96
and line 387): a backslash becomes `'/'`, all other characters are kept. -/
def replSep (c : Char) : Char := if c = '\\' then '/' else c

/-- Helper for `splitSep`: prepend a character to the first piece. -/
def consHead (c : Char) : List JStr → List JStr
  | [] => [[c]]
  | s :: rest => (c :: s) :: rest

/-- Split a string at every `'/'` (the pieces of `p.split('/')`). -/
def splitSep : JStr → List JStr
  | [] => [[]]
  | c :: cs => if c = '/' then [] :: splitSep cs else consHead c (splitSep cs)

/-- Join pieces with `'/'` between them (inverse of `splitSep`). -/
def joinSep : List JStr → JStr
  | [] => []
  | [s] => s
  | s :: rest => s ++ '/' :: joinSep rest

/-- Whether a POSIX path is absolute (starts with `'/'`). -/
def isAbsJ (p : JStr) : Bool := p.head? == some '/'

/-- Whether a POSIX path ends with a trailing `'/'`. -/
def hasTrailJ (p : JStr) : Bool := p.getLast? == some '/'

/-- One step of Node's `normalizeString` segment processing: empty and
`"."` segments are dropped, `".."` pops the previous segment (kept or
appended above the root only when `allowAboveRoot` holds, i.e. for
relative paths), and every other segment is appended. -/
def normStep (aar : Bool) (stack : List JStr) (seg : JStr) : List JStr :=
  if seg = [] ∨ seg = ['.'] then stack
  else if seg = ['.', '.'] then
    (if stack = [] ∨ stack.getLast? = some ['.', '.'] then
      (if aar then stack ++ [seg] else stack)
    else stack.dropLast)
  else stack ++ [seg]

/-- Node's `path.posix.normalize`: resolve `"."`/`".."`/empty segments,
keep absoluteness and a trailing separator, return `"."` for an empty
relative result. -/
def posixNormalize (p : JStr) : JStr :=
  let stack := (splitSep p).foldl (normStep (!isAbsJ p)) []
  let res := joinSep stack
  let res := if res = [] ∧ isAbsJ p = false then ['.'] else res
  let res := if res ≠ [] ∧ hasTrailJ p = true then res ++ ['/'] else res
  if isAbsJ p = true then '/' :: res else res

/-- Node's `path.posix.join` restricted to the two arguments used by the
source: empty arguments are skipped, the remaining ones are joined with
`'/'` and normalized; with no remaining argument the result is `"."`. -/
def posixJoin (a b : JStr) : JStr :=
  if a = [] then (if b = [] then ['.'] else posixNormalize b)
  else (if b = [] then posixNormalize a else posixNormalize (a ++ '/' :: b))

/-- Node's `path.posix.basename` (no suffix argument): the portion after
the last `'/'`, ignoring trailing `'/'` characters. -/
def posixBasename (p : JStr) : JStr :=
  (((p.reverse.dropWhile (fun c => c = '/')).takeWhile (fun c => ¬ c = '/')).reverse)

/-- Node's `path.posix.extname`: the suffix of the basename from its last
`'.'`, empty when the basename has no dot, starts with its only dot, or
is exactly `".."`. -/
def posixExtname (p : JStr) : JStr :=
  let base := posixBasename p
  let afterDot := base.reverse.takeWhile (fun c => ¬ c = '.')
  if afterDot.length = base.length then []
  else
    let d := base.length - afterDot.length - 1
    if d = 0 then [] else if base = ['.', '.'] then [] else base.drop d

/-- Lines 77-81 (and 368-372) of Spaces.ts: strip the source-folder prefix
by string length, then drop exactly one leading path separator. -/
def relativeOf (file sourceFolder : JStr) : JStr :=
  let r := file.drop sourceFolder.length
  if r.head? = some '/' then r.drop 1 else r

/-- The task parameters used by the uploaders (`Parameters`), restricted
to the fields the embedded code reads.  `digitalTargetFolder = []` and
`digitalContentType = []` model the unset/falsy configuration. -/
structure Parameters where
  digitalSourceFolder : JStr
  digitalTargetFolder : JStr
  digitalFlattenFolders : Bool
  digitalContentType : JStr
  digitalBucket : JStr
  digitalAcl : JStr
deriving DecidableEq, Repr

/-- Model of `Spaces.normalizeKeyPath` (Spaces.ts lines 76-97). -/
def Spaces.normalizeKeyPath (file : JStr) (params : Parameters) : JStr :=
  let relativePath := relativeOf file params.digitalSourceFolder
  let targetPath :=
    if params.digitalFlattenFolders then
      (if params.digitalTargetFolder ≠ [] then
        posixJoin params.digitalTargetFolder (posixBasename file)
      else posixBasename file)
    else
      (if params.digitalTargetFolder ≠ [] then
        posixJoin params.digitalTargetFolder relativePath
      else relativePath)
  targetPath.map replSep

/-- Model of `Upload.normalizeKeyPath` (Spaces.ts lines 367-388), the typed
variant's copy of the same function, embedded separately from its own
source text. -/
def Upload.normalizeKeyPath (file : JStr) (params : Parameters) : JStr :=
  let relativePath := relativeOf file params.digitalSourceFolder
  let targetPath :=
    if params.digitalFlattenFolders then
      (if params.digitalTargetFolder ≠ [] then
        posixJoin params.digitalTargetFolder (posixBasename file)
      else posixBasename file)
    else
      (if params.digitalTargetFolder ≠ [] then
        posixJoin params.digitalTargetFolder relativePath
      else relativePath)
  targetPath.map replSep

/-- The four-step key algorithm as worded by the spec (§4.1), written
from the spec's steps for comparison with the source's
`normalizeKeyPath`: 1. strip the `sourceFolder` prefix by string length;
2. drop exactly one leading separator if present; 3./4. flatten uses the
base name, non-flatten the relative path, each joined under
`targetFolder` when one is configured; 5. replace separators by `'/'`. -/
def specNormalizeKey (filePath sourceFolder targetFolder : JStr) (flatten : Bool) : JStr :=
  let relative := filePath.drop sourceFolder.length
  let relative := if relative.head? = some '/' then relative.drop 1 else relative
  let dest :=
    if flatten then
      (if targetFolder ≠ [] then posixJoin targetFolder (posixBasename filePath)
       else posixBasename filePath)
    else
      (if targetFolder ≠ [] then posixJoin targetFolder relative
       else relative)
  dest.map replSep

/-- Model of `Upload.knownMimeTypes` (Spaces.ts lines 113-294): the static map
from file extension to MIME type, transcribed entry for entry; a
JavaScript `Map` built from a duplicate-free pair list is looked up by
exact key equality, modelled by `List.lookup`. -/
def Upload.knownMimeTypes : List (String × String) :=
[
  (".ai", "application/postscript"),
  (".aif", "audio/x-aiff"),
  (".aifc", "audio/x-aiff"),
  (".aiff", "audio/x-aiff"),
  (".asc", "text/plain"),
  (".au", "audio/basic"),
  (".avi", "video/x-msvideo"),
  (".bcpio", "application/x-bcpio"),
  (".bin", "application/octet-stream"),
  (".c", "text/plain"),
  (".cc", "text/plain"),
  (".ccad", "application/clariscad"),
  (".cdf", "application/x-netcdf"),
  (".class", "application/octet-stream"),
  (".cpio", "application/x-cpio"),
  (".cpp", "text/plain"),
  (".cpt", "application/mac-compactpro"),
  (".cs", "text/plain"),
  (".csh", "application/x-csh"),
  (".css", "text/css"),
  (".dcr", "application/x-director"),
  (".dir", "application/x-director"),
  (".dms", "application/octet-stream"),
  (".doc", "application/msword"),
  (".docx", "application/vnd.openxmlformats-officedocument.wordprocessingml.document"),
  (".dot", "application/msword"),
  (".drw", "application/drafting"),
  (".dvi", "application/x-dvi"),
  (".dwg", "application/acad"),
  (".dxf", "application/dxf"),
  (".dxr", "application/x-director"),
  (".eps", "application/postscript"),
  (".etx", "text/x-setext"),
  (".exe", "application/octet-stream"),
  (".ez", "application/andrew-inset"),
  (".f", "text/plain"),
  (".f90", "text/plain"),
  (".fli", "video/x-fli"),
  (".gif", "image/gif"),
  (".gtar", "application/x-gtar"),
  (".gz", "application/x-gzip"),
  (".h", "text/plain"),
  (".hdf", "application/x-hdf"),
  (".hh", "text/plain"),
  (".hqx", "application/mac-binhex40"),
  (".htm", "text/html"),
  (".html", "text/html"),
  (".ice", "x-conference/x-cooltalk"),
  (".ief", "image/ief"),
  (".iges", "model/iges"),
  (".igs", "model/iges"),
  (".ips", "application/x-ipscript"),
  (".ipx", "application/x-ipix"),
  (".jpe", "image/jpeg"),
  (".jpeg", "image/jpeg"),
  (".jpg", "image/jpeg"),
  (".js", "application/x-javascript"),
  (".kar", "audio/midi"),
  (".latex", "application/x-latex"),
  (".lha", "application/octet-stream"),
  (".lsp", "application/x-lisp"),
  (".lzh", "application/octet-stream"),
  (".m", "text/plain"),
  (".m3u8", "application/x-mpegURL"),
  (".man", "application/x-troff-man"),
  (".me", "application/x-troff-me"),
  (".mesh", "model/mesh"),
  (".mid", "audio/midi"),
  (".midi", "audio/midi"),
  (".mime", "www/mime"),
  (".mov", "video/quicktime"),
  (".movie", "video/x-sgi-movie"),
  (".mp2", "audio/mpeg"),
  (".mp3", "audio/mpeg"),
  (".mpe", "video/mpeg"),
  (".mpeg", "video/mpeg"),
  (".mpg", "video/mpeg"),
  (".mpga", "audio/mpeg"),
  (".ms", "application/x-troff-ms"),
  (".msi", "application/x-ole-storage"),
  (".msh", "model/mesh"),
  (".nc", "application/x-netcdf"),
  (".oda", "application/oda"),
  (".pbm", "image/x-portable-bitmap"),
  (".pdb", "chemical/x-pdb"),
  (".pdf", "application/pdf"),
  (".pgm", "image/x-portable-graymap"),
  (".pgn", "application/x-chess-pgn"),
  (".png", "image/png"),
  (".pnm", "image/x-portable-anymap"),
  (".pot", "application/mspowerpoint"),
  (".ppm", "image/x-portable-pixmap"),
  (".pps", "application/mspowerpoint"),
  (".ppt", "application/mspowerpoint"),
  (".pptx", "application/vnd.openxmlformats-officedocument.presentationml.presentation"),
  (".ppz", "application/mspowerpoint"),
  (".pre", "application/x-freelance"),
  (".prt", "application/pro_eng"),
  (".ps", "application/postscript"),
  (".qt", "video/quicktime"),
  (".ra", "audio/x-realaudio"),
  (".ram", "audio/x-pn-realaudio"),
  (".ras", "image/cmu-raster"),
  (".rgb", "image/x-rgb"),
  (".rm", "audio/x-pn-realaudio"),
  (".roff", "application/x-troff"),
  (".rpm", "audio/x-pn-realaudio-plugin"),
  (".rtf", "text/rtf"),
  (".rtx", "text/richtext"),
  (".scm", "application/x-lotusscreencam"),
  (".set", "application/set"),
  (".sgm", "text/sgml"),
  (".sgml", "text/sgml"),
  (".sh", "application/x-sh"),
  (".shar", "application/x-shar"),
  (".silo", "model/mesh"),
  (".sit", "application/x-stuffit"),
  (".skd", "application/x-koan"),
  (".skm", "application/x-koan"),
  (".skp", "application/x-koan"),
  (".skt", "application/x-koan"),
  (".smi", "application/smil"),
  (".smil", "application/smil"),
  (".snd", "audio/basic"),
  (".sol", "application/solids"),
  (".spl", "application/x-futuresplash"),
  (".src", "application/x-wais-source"),
  (".step", "application/STEP"),
  (".stl", "application/SLA"),
  (".stp", "application/STEP"),
  (".sv4cpio", "application/x-sv4cpio"),
  (".sv4crc", "application/x-sv4crc"),
  (".svg", "image/svg+xml"),
  (".swf", "application/x-shockwave-flash"),
  (".t", "application/x-troff"),
  (".tar", "application/x-tar"),
  (".tcl", "application/x-tcl"),
  (".tex", "application/x-tex"),
  (".tif", "image/tiff"),
  (".tiff", "image/tiff"),
  (".tr", "application/x-troff"),
  (".ts", "video/MP2T"),
  (".tsi", "audio/TSP-audio"),
  (".tsp", "application/dsptype"),
  (".tsv", "text/tab-separated-values"),
  (".txt", "text/plain"),
  (".unv", "application/i-deas"),
  (".ustar", "application/x-ustar"),
  (".vcd", "application/x-cdlink"),
  (".vda", "application/vda"),
  (".vrml", "model/vrml"),
  (".wav", "audio/x-wav"),
  (".wrl", "model/vrml"),
  (".xbm", "image/x-xbitmap"),
  (".xlc", "application/vnd.ms-excel"),
  (".xll", "application/vnd.ms-excel"),
  (".xlm", "application/vnd.ms-excel"),
  (".xls", "application/vnd.ms-excel"),
  (".xlsx", "application/vnd.openxmlformats-officedocument.spreadsheetml.sheet"),
  (".xlw", "application/vnd.ms-excel"),
  (".xml", "text/xml"),
  (".xpm", "image/x-xpixmap"),
  (".xwd", "image/x-xwindowdump"),
  (".xyz", "chemical/x-pdb"),
  (".zip", "application/zip"),
  (".m4v", "video/x-m4v"),
  (".webm", "video/webm"),
  (".ogv", "video/ogv"),
  (".xap", "application/x-silverlight-app"),
  (".mp4", "video/mp4"),
  (".wmv", "video/x-ms-wmv")
]

/-- The content-type resolution inlined in `Upload.init` (Spaces.ts
lines 323-331): a truthy `digitalContentType` wins; otherwise
`knownMimeTypes.get(path.extname(file))`, falling back to
`application/octet-stream` when the lookup result is falsy. -/
def Upload.resolveContentType (digitalContentType : JStr) (file : JStr) : JStr :=
  if digitalContentType ≠ [] then digitalContentType
  else
    match Upload.knownMimeTypes.lookup (posixExtname file).asString with
    | some ct => if ct = "" then "application/octet-stream".toList else ct.toList
    | none => "application/octet-stream".toList

/-- The log events the uploaders emit through `console.log` /
`console.error` (`tl.loc` resource name plus the arguments passed to
it).  `uploadingFile` carries the content type only in the typed
variant, matching the extra argument of Spaces.ts line 333 compared to
line 45; `fileUploadFailed` carries only the underlying error, matching
`console.error(tl.loc('FileUploadFailed'), err)` (lines 70 and 359),
whose localized message takes no argument. -/
inductive Event where
  | uploadingFiles (sourceFolder effectiveTarget bucket : JStr)
  | fileNotFound (sourceFolder : JStr)
  | uploadingFile (file key : JStr) (contentType : Option JStr)
  | fileUploadCompleted (file key : JStr)
  | fileUploadFailed (err : JStr)
  | taskCompleted
deriving DecidableEq, Repr

/-- The `S3.PutObjectRequest` built per file.  `Body` records which file
is streamed (`fs.createReadStream(file)`); `ContentType` is absent in
the minimal variant's request (lines 47-52) and present in the typed
variant's (lines 335-341). -/
structure PutObjectRequest where
  Bucket : JStr
  ACL : JStr
  Key : JStr
  Body : JStr
  ContentType : Option JStr
deriving DecidableEq, Repr

/-- The request the minimal `Spaces.upload` issues for one file. -/
def Spaces.requestFor (params : Parameters) (file : JStr) : PutObjectRequest :=
  { Bucket := params.digitalBucket
    ACL := params.digitalAcl
    Key := Spaces.normalizeKeyPath file params
    Body := file
    ContentType := none }

/-- The request the typed `Upload.init` issues for one file. -/
def Upload.requestFor (params : Parameters) (file : JStr) : PutObjectRequest :=
  { Bucket := params.digitalBucket
    ACL := params.digitalAcl
    Key := Upload.normalizeKeyPath file params
    Body := file
    ContentType := some (Upload.resolveContentType params.digitalContentType file) }

/-- The per-file loop of `Spaces.upload` (lines 42-73).  `send` is the
external storage client: for each issued request it resolves or rejects
once.  Returns the emitted events, the issued requests in order, and
the overall outcome: a rejected upload logs `FileUploadFailed` with the
error and rethrows, so no later file is attempted. -/
def Spaces.uploadLoop (params : Parameters)
    (send : PutObjectRequest → Except JStr Unit) :
    List JStr → List Event × List PutObjectRequest × Except JStr Unit
  | [] => ([], [], .ok ())
  | file :: rest =>
    let targetPath := Spaces.normalizeKeyPath file params
    let req := Spaces.requestFor params file
    match send req with
    | .ok _ =>
      let r := Spaces.uploadLoop params send rest
      (.uploadingFile file targetPath none :: .fileUploadCompleted file targetPath :: r.1,
       req :: r.2.1, r.2.2)
    | .error err =>
      ([.uploadingFile file targetPath none, .fileUploadFailed err], [req], .error err)

/-- Model of `Spaces.upload` (lines 28-74): logs `UploadingFiles` (target shown
as `root` when unset), then runs the loop directly on the discovered
file list — there is no empty-list check and no final `TaskCompleted`
log in this variant. -/
def Spaces.upload (params : Parameters)
    (send : PutObjectRequest → Except JStr Unit) (files : List JStr) :
    List Event × List PutObjectRequest × Except JStr Unit :=
  let startEv := Event.uploadingFiles params.digitalSourceFolder
    (if params.digitalTargetFolder = [] then "root".toList else params.digitalTargetFolder)
    params.digitalBucket
  let r := Spaces.uploadLoop params send files
  (startEv :: r.1, r.2.1, r.2.2)

/-- The per-file loop of `Upload.init` (lines 319-362), with content
type resolution per file. -/
def Upload.uploadLoop (params : Parameters)
    (send : PutObjectRequest → Except JStr Unit) :
    List JStr → List Event × List PutObjectRequest × Except JStr Unit
  | [] => ([], [], .ok ())
  | file :: rest =>
    let targetPath := Upload.normalizeKeyPath file params
    let contentType := Upload.resolveContentType params.digitalContentType file
    let req := Upload.requestFor params file
    match send req with
    | .ok _ =>
      let r := Upload.uploadLoop params send rest
      (.uploadingFile file targetPath (some contentType) :: .fileUploadCompleted file targetPath :: r.1,
       req :: r.2.1, r.2.2)
    | .error err =>
      ([.uploadingFile file targetPath (some contentType), .fileUploadFailed err], [req], .error err)

/-- Model of `Upload.init` (lines 300-365): logs `UploadingFiles`; an empty file
list logs `FileNotFound` and returns successfully; otherwise the loop
runs and, when every upload succeeded, `TaskCompleted` is logged. -/
def Upload.init (params : Parameters)
    (send : PutObjectRequest → Except JStr Unit) (files : List JStr) :
    List Event × List PutObjectRequest × Except JStr Unit :=
  let startEv := Event.uploadingFiles params.digitalSourceFolder
    (if params.digitalTargetFolder = [] then "root".toList else params.digitalTargetFolder)
    params.digitalBucket
  if files = [] then
    ([startEv, .fileNotFound params.digitalSourceFolder], [], .ok ())
  else
    match Upload.uploadLoop params send files with
    | (evs, reqs, .ok _) => (startEv :: evs ++ [.taskCompleted], reqs, .ok ())
    | (evs, reqs, .error e) => (startEv :: evs, reqs, .error e)

/-- Recognizer for per-file completion events. -/
def isCompletedEv : Event → Bool
  | .fileUploadCompleted _ _ => true
  | _ => false

/-- Recognizer for failure events. -/
def isFailedEv : Event → Bool
  | .fileUploadFailed _ => true
  | _ => false

/-- Recognizer for the "no files found" event. -/
def isFileNotFoundEv : Event → Bool
  | .fileNotFound _ => true
  | _ => false

/-- A relative path all of whose `'/'`-separated segments are plain:
nonempty and neither `"."` nor `".."` (so `path.join` leaves its
structure untouched). -/
def plainSegs (r : JStr) : Prop :=
  ∀ x ∈ splitSep r, x ≠ [] ∧ x ≠ ['.'] ∧ x ≠ ['.', '.']

instance (r : JStr) : Decidable (plainSegs r) := by
  unfold plainSegs; infer_instance

/-- Example configuration of the spec's end-to-end example:
`sourceFolder=/build/out`, `targetFolder="release"`, `flatten=false`. -/
def pC1 : Parameters :=
  ⟨"/build/out".toList, "release".toList, false, [], "bucket".toList, "private".toList⟩

/-- The same configuration with `flatten=true`. -/
def pC1flat : Parameters :=
  ⟨"/build/out".toList, "release".toList, true, [], "bucket".toList, "private".toList⟩

/-- A configuration whose target folder starts with a separator. -/
def pC3 : Parameters :=
  ⟨"/build/out".toList, "/release".toList, false, [], "bucket".toList, "private".toList⟩

/-- A non-flatten configuration with no target folder. -/
def pC4c : Parameters :=
  ⟨"/src".toList, [], false, [], "bucket".toList, "private".toList⟩

/-- A non-flatten configuration with target folder `t`. -/
def pC4w : Parameters :=
  ⟨"/s".toList, "t".toList, false, [], "bucket".toList, "private".toList⟩

/-- A flatten configuration with target folder `release`. -/
def pC5w : Parameters :=
  ⟨"/s".toList, "release".toList, true, [], "bucket".toList, "private".toList⟩

/-- A configuration for the orchestrator scenarios (no target folder,
no flattening, no content-type override). -/
def pC7 : Parameters :=
  ⟨"/s".toList, [], false, [], "bucket".toList, "private".toList⟩

/-- First scenario file. -/
def fC7a : JStr := "/s/f1.txt".toList

/-- Second scenario file, whose upload will reject. -/
def fC7b : JStr := "/s/f2.txt".toList

/-- Third scenario file, which must never be attempted. -/
def fC7c : JStr := "/s/f3.txt".toList

/-- A storage client that rejects exactly the upload of `fC7b` with the
error `boom` and resolves every other request. -/
def sendC7 : PutObjectRequest → Except JStr Unit :=
  fun r => if r.Body = fC7b then .error "boom".toList else .ok ()

/-- A storage client that resolves every request. -/
def sendOk : PutObjectRequest → Except JStr Unit := fun _ => .ok ()

/-- The normalized-prefix context a target folder `t` contributes to
`posixNormalize (t ++ '/' :: r)` when every segment of `r` is plain:
the optional leading `'/'` and the normalized segments of `t` followed
by a separator. -/
def normContext (t : JStr) : JStr :=
  let stackT := (splitSep t).foldl (normStep (!isAbsJ t)) []
  (if isAbsJ t = true then ['/'] else []) ++
    (if stackT = [] then [] else joinSep stackT ++ ['/'])

theorem splitSep_ne_nil (s : JStr) : splitSep s ≠ [] := by
  induction s with
  | nil => simp [splitSep]
  | cons c cs ih =>
    simp only [splitSep]
    split
    · simp
    · cases h : splitSep cs with
      | nil => simp [consHead]
      | cons a l => simp [consHead]

theorem mem_splitSep_no_slash : ∀ {s pc : JStr}, pc ∈ splitSep s → '/' ∉ pc := by
  intro s
  induction s with
  | nil => intro pc h; simp [splitSep] at h; simp [h]
  | cons c cs ih =>
    intro pc h
    by_cases hc : c = '/'
    · rw [splitSep, if_pos hc] at h
      rcases List.mem_cons.mp h with rfl | h'
      · simp
      · exact ih h'
    · rw [splitSep, if_neg hc] at h
      cases hcs : splitSep cs with
      | nil => exact absurd hcs (splitSep_ne_nil cs)
      | cons a l =>
        rw [hcs] at h
        simp only [consHead] at h
        rcases List.mem_cons.mp h with rfl | h'
        · intro hm
          rcases List.mem_cons.mp hm with h2 | h2
          · exact hc h2.symm
          · exact ih (hcs ▸ List.mem_cons_self a l) h2
        · exact ih (hcs ▸ List.mem_cons_of_mem a h')

theorem mem_splitSep_subset : ∀ {s pc : JStr}, pc ∈ splitSep s → ∀ {c : Char}, c ∈ pc → c ∈ s := by
  intro s
  induction s with
  | nil => intro pc h; simp [splitSep] at h; simp [h]
  | cons c cs ih =>
    intro pc h d hd
    by_cases hc : c = '/'
    · rw [splitSep, if_pos hc] at h
      rcases List.mem_cons.mp h with rfl | h'
      · simp at hd
      · exact List.mem_cons_of_mem _ (ih h' hd)
    · rw [splitSep, if_neg hc] at h
      cases hcs : splitSep cs with
      | nil => exact absurd hcs (splitSep_ne_nil cs)
      | cons a l =>
        rw [hcs] at h
        simp only [consHead] at h
        rcases List.mem_cons.mp h with rfl | h'
        · rcases List.mem_cons.mp hd with rfl | h2
          · exact List.mem_cons_self _ _
          · exact List.mem_cons_of_mem _ (ih (hcs ▸ List.mem_cons_self a l) h2)
        · exact List.mem_cons_of_mem _ (ih (hcs ▸ List.mem_cons_of_mem a h') hd)

theorem consHead_append (c : Char) {l : List JStr} (m : List JStr) (h : l ≠ []) :
    consHead c (l ++ m) = consHead c l ++ m := by
  cases l with
  | nil => exact absurd rfl h
  | cons a l' => simp [consHead]

theorem splitSep_append_slash (a b : JStr) :
    splitSep (a ++ '/' :: b) = splitSep a ++ splitSep b := by
  induction a with
  | nil => simp [splitSep]
  | cons c a' ih =>
    by_cases hc : c = '/'
    · rw [List.cons_append, splitSep, if_pos hc, splitSep, if_pos hc, ih, List.cons_append]
    · rw [List.cons_append, splitSep, if_neg hc, splitSep, if_neg hc, ih,
        consHead_append c _ (splitSep_ne_nil a')]

theorem joinSep_consHead (c : Char) {l : List JStr} (h : l ≠ []) :
    joinSep (consHead c l) = c :: joinSep l := by
  match l with
  | [] => exact absurd rfl h
  | [s] => rfl
  | s :: t :: r => rfl

theorem joinSep_splitSep (s : JStr) : joinSep (splitSep s) = s := by
  induction s with
  | nil => rfl
  | cons c cs ih =>
    by_cases hc : c = '/'
    · rw [splitSep, if_pos hc]
      obtain ⟨a, l, hal⟩ := List.exists_cons_of_ne_nil (splitSep_ne_nil cs)
      rw [hal]
      show ([] : JStr) ++ '/' :: joinSep (a :: l) = c :: cs
      rw [← hal, ih]
      simp [hc]
    · rw [splitSep, if_neg hc, joinSep_consHead c (splitSep_ne_nil cs), ih]

theorem joinSep_cons_cons (s t : JStr) (r : List JStr) :
    joinSep (s :: t :: r) = s ++ '/' :: joinSep (t :: r) := rfl

theorem joinSep_append : ∀ {st : List JStr}, st ≠ [] → ∀ {l : List JStr}, l ≠ [] →
    joinSep (st ++ l) = joinSep st ++ '/' :: joinSep l := by
  intro st
  induction st with
  | nil => intro h; exact absurd rfl h
  | cons s st' ih =>
    intro _ l hl
    cases st' with
    | nil =>
      cases l with
      | nil => exact absurd rfl hl
      | cons t r => simp [joinSep_cons_cons, joinSep]
    | cons t r =>
      have h2 := ih (l := l) (by simp) hl
      rw [List.cons_append] at h2
      rw [List.cons_append, List.cons_append, joinSep_cons_cons, joinSep_cons_cons, h2]
      simp

theorem joinSep_head (s₀ : JStr) (rest : List JStr) (h : s₀ ≠ []) :
    (joinSep (s₀ :: rest)).head? = s₀.head? := by
  cases s₀ with
  | nil => exact absurd rfl h
  | cons a s' =>
    cases rest with
    | nil => rfl
    | cons t r => rw [joinSep_cons_cons]; simp

theorem joinSep_ne_nil {s₀ : JStr} (rest : List JStr) (h : s₀ ≠ []) :
    joinSep (s₀ :: rest) ≠ [] := by
  cases rest with
  | nil => exact h
  | cons t r =>
    rw [joinSep_cons_cons]
    exact List.append_ne_nil_of_left_ne_nil h _

theorem mem_joinSep : ∀ {l : List JStr} {c : Char}, c ∈ joinSep l → c = '/' ∨ ∃ x ∈ l, c ∈ x := by
  intro l
  induction l with
  | nil => intro c h; simp [joinSep] at h
  | cons s l' ih =>
    intro c h
    cases l' with
    | nil => exact Or.inr ⟨s, by simp, h⟩
    | cons t r =>
      rw [joinSep_cons_cons] at h
      rcases List.mem_append.mp h with h' | h'
      · exact Or.inr ⟨s, by simp, h'⟩
      · rcases List.mem_cons.mp h' with rfl | h''
        · exact Or.inl rfl
        · rcases ih h'' with h3 | ⟨x, hx, hc⟩
          · exact Or.inl h3
          · exact Or.inr ⟨x, List.mem_cons_of_mem _ hx, hc⟩

theorem mem_of_mem_dropLast' : ∀ {l : List JStr} {x : JStr}, x ∈ l.dropLast → x ∈ l := by
  intro l
  induction l with
  | nil => intro x h; simp at h
  | cons a l' ih =>
    intro x h
    cases l' with
    | nil => simp at h
    | cons b r =>
      rw [List.dropLast_cons₂] at h
      rcases List.mem_cons.mp h with rfl | h'
      · exact List.mem_cons_self _ _
      · exact List.mem_cons_of_mem _ (ih h')

theorem normStep_mem {aar : Bool} {st : List JStr} {seg x : JStr}
    (h : x ∈ normStep aar st seg) : x ∈ st ∨ (x = seg ∧ seg ≠ []) := by
  unfold normStep at h
  by_cases h1 : seg = [] ∨ seg = ['.']
  · rw [if_pos h1] at h; exact Or.inl h
  · by_cases h2 : seg = ['.', '.']
    · rw [if_neg h1, if_pos h2] at h
      by_cases h3 : st = [] ∨ st.getLast? = some ['.', '.']
      · rw [if_pos h3] at h
        by_cases h4 : aar = true
        · rw [if_pos h4] at h
          rcases List.mem_append.mp h with h' | h'
          · exact Or.inl h'
          · exact Or.inr ⟨List.mem_singleton.mp h', by rw [h2]; simp⟩
        · rw [if_neg h4] at h; exact Or.inl h
      · rw [if_neg h3] at h; exact Or.inl (mem_of_mem_dropLast' h)
    · rw [if_neg h1, if_neg h2] at h
      rcases List.mem_append.mp h with h' | h'
      · exact Or.inl h'
      · exact Or.inr ⟨List.mem_singleton.mp h', fun hnil => h1 (Or.inl hnil)⟩

theorem foldl_normStep_mem {aar : Bool} {x : JStr} :
    ∀ (segs : List JStr) (init : List JStr),
      x ∈ List.foldl (normStep aar) init segs → x ∈ init ∨ (x ∈ segs ∧ x ≠ []) := by
  intro segs
  induction segs with
  | nil => intro init h; exact Or.inl h
  | cons s rest ih =>
    intro init h
    rcases ih (normStep aar init s) h with h' | h'
    · rcases normStep_mem h' with h'' | h''
      · exact Or.inl h''
      · exact Or.inr ⟨by simp [h''.1], h''.1 ▸ h''.2⟩
    · exact Or.inr ⟨List.mem_cons_of_mem _ h'.1, h'.2⟩

theorem foldl_normStep_plain {aar : Bool} :
    ∀ (segs : List JStr) (st : List JStr),
      (∀ x ∈ segs, x ≠ [] ∧ x ≠ ['.'] ∧ x ≠ ['.', '.']) →
      List.foldl (normStep aar) st segs = st ++ segs := by
  intro segs
  induction segs with
  | nil => intro st _; simp
  | cons s rest ih =>
    intro st h
    have hs := h s (by simp)
    have hstep : normStep aar st s = st ++ [s] := by
      unfold normStep
      rw [if_neg (by simp [hs.1, hs.2.1]), if_neg hs.2.2]
    rw [List.foldl_cons, hstep, ih _ (fun x hx => h x (List.mem_cons_of_mem _ hx))]
    simp

theorem plainSegs_ne_nil {r : JStr} (h : plainSegs r) : r ≠ [] := by
  rintro rfl
  exact (h [] (by simp [splitSep])).1 rfl

theorem plainSegs_getLast {r : JStr} (h : plainSegs r) : r.getLast? ≠ some '/' := by
  intro hl
  have hrnil : r ≠ [] := by rintro rfl; simp at hl
  have hsplit : r = r.dropLast ++ '/' :: [] := by
    conv_lhs => rw [← List.dropLast_append_getLast hrnil]
    have := List.getLast?_eq_getLast r hrnil
    rw [this] at hl
    rw [Option.some_inj.mp hl]
  have h2 : ([] : JStr) ∈ splitSep r := by
    rw [hsplit, splitSep_append_slash]
    simp [splitSep]
  exact (h [] h2).1 rfl

theorem isAbsJ_append {t : JStr} (q : JStr) (ht : t ≠ []) : isAbsJ (t ++ q) = isAbsJ t := by
  cases t with
  | nil => exact absurd rfl ht
  | cons a s => simp [isAbsJ]

theorem head?_append_left {l : List Char} (m : List Char) (h : l ≠ []) :
    (l ++ m).head? = l.head? := by
  cases l with
  | nil => exact absurd rfl h
  | cons a s => simp

theorem mem_of_head?_eq {l : JStr} {a : Char} (h : l.head? = some a) : a ∈ l := by
  cases l with
  | nil => simp at h
  | cons b t =>
    simp only [List.head?_cons, Option.some_inj] at h
    rw [← h]
    exact List.mem_cons_self _ _

theorem posixNormalize_mem {p : JStr} {c : Char} (h : c ∈ posixNormalize p) :
    c ∈ p ∨ c = '/' ∨ c = '.' := by
  have core : ∀ {d : Char}, d ∈ joinSep ((splitSep p).foldl (normStep (!isAbsJ p)) []) →
      d ∈ p ∨ d = '/' ∨ d = '.' := by
    intro d hd
    rcases mem_joinSep hd with h' | ⟨x, hx, hc⟩
    · exact Or.inr (Or.inl h')
    · rcases foldl_normStep_mem _ _ hx with h'' | h''
      · simp at h''
      · exact Or.inl (mem_splitSep_subset h''.1 hc)
  simp only [posixNormalize] at h
  by_cases h1 : joinSep ((splitSep p).foldl (normStep (!isAbsJ p)) []) = [] ∧ isAbsJ p = false
  · rw [if_pos h1] at h
    by_cases h2 : (['.'] : JStr) ≠ [] ∧ hasTrailJ p = true
    · rw [if_pos h2] at h
      split at h <;> simp_all <;> tauto
    · rw [if_neg h2] at h
      split at h <;> simp_all <;> tauto
  · rw [if_neg h1] at h
    by_cases h2 : joinSep ((splitSep p).foldl (normStep (!isAbsJ p)) []) ≠ [] ∧ hasTrailJ p = true
    · rw [if_pos h2] at h
      split at h
      · rcases List.mem_cons.mp h with rfl | h'
        · exact Or.inr (Or.inl rfl)
        · rcases List.mem_append.mp h' with h'' | h''
          · exact core h''
          · simp at h''; exact Or.inr (Or.inl h'')
      · rcases List.mem_append.mp h with h'' | h''
        · exact core h''
        · simp at h''; exact Or.inr (Or.inl h'')
    · rw [if_neg h2] at h
      split at h
      · rcases List.mem_cons.mp h with rfl | h'
        · exact Or.inr (Or.inl rfl)
        · exact core h'
      · exact core h

theorem posixNormalize_head {p : JStr} (habs : isAbsJ p = false) :
    (posixNormalize p).head? ≠ some '/' := by
  simp only [posixNormalize]
  rw [if_neg (by simp [habs])]
  by_cases h1 : joinSep ((splitSep p).foldl (normStep (!isAbsJ p)) []) = [] ∧ isAbsJ p = false
  · rw [if_pos h1]
    by_cases h2 : (['.'] : JStr) ≠ [] ∧ hasTrailJ p = true
    · rw [if_pos h2]; simp
    · rw [if_neg h2]; simp
  · rw [if_neg h1]
    have hres : joinSep ((splitSep p).foldl (normStep (!isAbsJ p)) []) ≠ [] := by
      intro hnil; exact h1 ⟨hnil, habs⟩
    have hstknil : (splitSep p).foldl (normStep (!isAbsJ p)) [] ≠ [] := by
      intro h'
      rw [h'] at hres
      exact hres rfl
    obtain ⟨s₀, rest, hstack⟩ := List.exists_cons_of_ne_nil hstknil
    · have hs₀ : s₀ ∈ splitSep p ∧ s₀ ≠ [] := by
        have hmem : s₀ ∈ (splitSep p).foldl (normStep (!isAbsJ p)) [] := by
          rw [hstack]; exact List.mem_cons_self _ _
        rcases foldl_normStep_mem _ _ hmem with h' | h'
        · simp at h'
        · exact h'
      have hhead : (joinSep ((splitSep p).foldl (normStep (!isAbsJ p)) [])).head? = s₀.head? := by
        rw [hstack]; exact joinSep_head s₀ rest hs₀.2
      obtain ⟨a, s', ha'⟩ := List.exists_cons_of_ne_nil hs₀.2
      have ha : a ≠ '/' := by
        intro h'
        refine mem_splitSep_no_slash hs₀.1 ?_
        rw [ha', ← h']
        exact List.mem_cons_self _ _
      by_cases h2 : joinSep ((splitSep p).foldl (normStep (!isAbsJ p)) []) ≠ [] ∧ hasTrailJ p = true
      · rw [if_pos h2, head?_append_left _ hres, hhead, ha']
        simp [ha]
      · rw [if_neg h2, hhead, ha']
        simp [ha]

theorem posixJoin_head {a b : JStr} (ha : a ≠ []) (habs : isAbsJ a = false) :
    (posixJoin a b).head? ≠ some '/' := by
  unfold posixJoin
  rw [if_neg ha]
  by_cases hb : b = []
  · rw [if_pos hb]; exact posixNormalize_head habs
  · rw [if_neg hb]
    exact posixNormalize_head (by rw [isAbsJ_append _ ha]; exact habs)

theorem posixJoin_no_char {a b : JStr} {c : Char} (hc1 : c ≠ '/') (hc2 : c ≠ '.')
    (ha : c ∉ a) (hb : c ∉ b) : c ∉ posixJoin a b := by
  intro h
  unfold posixJoin at h
  by_cases h1 : a = []
  · rw [if_pos h1] at h
    by_cases h2 : b = []
    · rw [if_pos h2] at h; simp at h; exact hc2 h
    · rw [if_neg h2] at h
      rcases posixNormalize_mem h with h' | h' | h'
      · exact hb h'
      · exact hc1 h'
      · exact hc2 h'
  · rw [if_neg h1] at h
    by_cases h2 : b = []
    · rw [if_pos h2] at h
      rcases posixNormalize_mem h with h' | h' | h'
      · exact ha h'
      · exact hc1 h'
      · exact hc2 h'
    · rw [if_neg h2] at h
      rcases posixNormalize_mem h with h' | h' | h'
      · rcases List.mem_append.mp h' with h'' | h''
        · exact ha h''
        · rcases List.mem_cons.mp h'' with rfl | h3
          · exact hc1 rfl
          · exact hb h3
      · exact hc1 h'
      · exact hc2 h'

theorem posixBasename_no_slash {p : JStr} : '/' ∉ posixBasename p := by
  intro h
  unfold posixBasename at h
  rw [List.mem_reverse] at h
  have := List.mem_takeWhile_imp h
  simp at this

theorem posixBasename_subset {p : JStr} {c : Char} (h : c ∈ posixBasename p) : c ∈ p := by
  unfold posixBasename at h
  rw [List.mem_reverse] at h
  have h1 := (List.takeWhile_sublist _).subset h
  have h2 := (List.dropWhile_sublist _).subset h1
  rw [List.mem_reverse] at h2
  exact h2

theorem posixBasename_head (p : JStr) : (posixBasename p).head? ≠ some '/' := by
  intro h
  exact posixBasename_no_slash (mem_of_head?_eq h)

theorem relativeOf_subset {f s : JStr} {c : Char} (h : c ∈ relativeOf f s) : c ∈ f := by
  simp only [relativeOf] at h
  split at h
  · exact List.drop_subset _ _ (List.drop_subset _ _ h)
  · exact List.drop_subset _ _ h

theorem replSep_ne_backslash (c : Char) : replSep c ≠ '\\' := by
  unfold replSep
  split
  · decide
  · assumption

theorem map_replSep_no_backslash (l : JStr) : '\\' ∉ l.map replSep := by
  intro h
  rw [List.mem_map] at h
  obtain ⟨d, _, hd⟩ := h
  exact replSep_ne_backslash d hd

theorem map_replSep_id {l : JStr} (h : '\\' ∉ l) : l.map replSep = l := by
  induction l with
  | nil => rfl
  | cons a t ih =>
    have ha : a ≠ '\\' := fun h' => h (h' ▸ List.mem_cons_self a t)
    rw [List.map_cons, ih (fun h' => h (List.mem_cons_of_mem _ h'))]
    simp [replSep, ha]

theorem head?_map_replSep (l : JStr) : (l.map replSep).head? = l.head?.map replSep := by
  cases l <;> simp

theorem replSep_eq_slash {c : Char} (h : replSep c = '/') : c = '/' ∨ c = '\\' := by
  unfold replSep at h
  split at h
  · right; assumption
  · left; exact h

theorem targetPath_head_safe {tgt x : JStr}
    (habs : isAbsJ tgt = false) (htgt : '\\' ∉ tgt)
    (hx1 : x.head? ≠ some '/') (hx2 : '\\' ∉ x) :
    ((if tgt ≠ [] then posixJoin tgt x else x).map replSep).head? ≠ some '/' := by
  intro hcontra
  rw [head?_map_replSep] at hcontra
  obtain ⟨d, hd, hrepl⟩ := Option.map_eq_some'.mp hcontra
  by_cases ht : tgt = []
  · rw [if_neg (by simp [ht])] at hd
    rcases replSep_eq_slash hrepl with rfl | rfl
    · exact hx1 hd
    · exact hx2 (mem_of_head?_eq hd)
  · rw [if_pos ht] at hd
    rcases replSep_eq_slash hrepl with rfl | rfl
    · exact posixJoin_head ht habs hd
    · exact posixJoin_no_char (by decide) (by decide) htgt hx2 (mem_of_head?_eq hd)

theorem posixNormalize_append_plain {t r : JStr} (ht : t ≠ []) (hr : plainSegs r) :
    posixNormalize (t ++ '/' :: r) = normContext t ++ r := by
  have hrnil : r ≠ [] := plainSegs_ne_nil hr
  have habs : isAbsJ (t ++ '/' :: r) = isAbsJ t := isAbsJ_append _ ht
  have htrail : hasTrailJ (t ++ '/' :: r) = false := by
    unfold hasTrailJ
    have h1 : (t ++ '/' :: r).reverse.head? = r.reverse.head? := by
      rw [List.reverse_append, List.reverse_cons, List.append_assoc]
      exact head?_append_left _ (by simp [hrnil])
    rw [List.head?_reverse, List.head?_reverse] at h1
    rw [h1]
    simp [plainSegs_getLast hr]
  set stackT := (splitSep t).foldl (normStep (!isAbsJ t)) [] with hstT
  have hstack : (splitSep (t ++ '/' :: r)).foldl (normStep (!isAbsJ (t ++ '/' :: r))) [] =
      stackT ++ splitSep r := by
    rw [splitSep_append_slash, habs, List.foldl_append, hstT]
    exact foldl_normStep_plain _ _ hr
  have hres : joinSep (stackT ++ splitSep r) =
      (if stackT = [] then [] else joinSep stackT ++ ['/']) ++ r := by
    by_cases hs : stackT = []
    · rw [hs, if_pos rfl]
      simp [joinSep_splitSep r]
    · rw [if_neg hs, joinSep_append hs (splitSep_ne_nil r), joinSep_splitSep]
      simp
  have hresnil : joinSep (stackT ++ splitSep r) ≠ [] := by
    rw [hres]
    intro hc
    exact hrnil (List.append_eq_nil.mp hc).2
  simp only [posixNormalize]
  rw [hstack, htrail, habs]
  rw [if_neg (show ¬(joinSep (stackT ++ splitSep r) = [] ∧ isAbsJ t = false) from
    fun hc => hresnil hc.1)]
  rw [if_neg (show ¬(joinSep (stackT ++ splitSep r) ≠ [] ∧ (false : Bool) = true) from
    by simp)]
  rw [hres]
  simp only [normContext]
  rw [← hstT]
  by_cases habs2 : isAbsJ t = true <;> simp [habs2, List.append_assoc]

theorem posixJoin_plain {t r : JStr} (ht : t ≠ []) (hr : plainSegs r) :
    posixJoin t r = normContext t ++ r := by
  unfold posixJoin
  rw [if_neg ht, if_neg (plainSegs_ne_nil hr)]
  exact posixNormalize_append_plain ht hr

/-- C1: for every file path beginning with the configured source folder,
`normalizeKeyPath` computes the key by the spec's four-step algorithm
(formalized as `specNormalizeKey`), and on the spec's end-to-end example
(`sourceFolder=/build/out`, `targetFolder="release"`) it produces
`release/a.txt` and `release/img/b.png` without flattening, and
`release/a.txt` and `release/b.png` with flattening. -/
theorem C1_normalizeKey_spec_steps :
    (∀ (params : Parameters) (file : JStr),
      (∃ rest, file = params.digitalSourceFolder ++ rest) →
      Spaces.normalizeKeyPath file params =
        specNormalizeKey file params.digitalSourceFolder params.digitalTargetFolder
          params.digitalFlattenFolders) ∧
    Spaces.normalizeKeyPath "/build/out/a.txt".toList pC1 = "release/a.txt".toList ∧
    Spaces.normalizeKeyPath "/build/out/img/b.png".toList pC1 = "release/img/b.png".toList ∧
    Spaces.normalizeKeyPath "/build/out/a.txt".toList pC1flat = "release/a.txt".toList ∧
    Spaces.normalizeKeyPath "/build/out/img/b.png".toList pC1flat = "release/b.png".toList := by
  refine ⟨fun params file _ => rfl, ?_, ?_, ?_, ?_⟩ <;> decide

/-- Witness for C1: the general conjunct applied at the concrete example
file `/build/out/a.txt` under the example configuration. -/
theorem C1_witness :
    Spaces.normalizeKeyPath "/build/out/a.txt".toList pC1 =
      specNormalizeKey "/build/out/a.txt".toList pC1.digitalSourceFolder
        pC1.digitalTargetFolder pC1.digitalFlattenFolders :=
  C1_normalizeKey_spec_steps.1 pC1 "/build/out/a.txt".toList ⟨"/a.txt".toList, by decide⟩

/-- C9: `normalizeKeyPath` is a pure, deterministic function — calling
it twice with identical inputs yields identical output, in both
uploader variants. -/
theorem C9_normalizeKey_deterministic :
    ∀ (file : JStr) (params : Parameters),
      Spaces.normalizeKeyPath file params = Spaces.normalizeKeyPath file params ∧
      Upload.normalizeKeyPath file params = Upload.normalizeKeyPath file params :=
  fun _ _ => ⟨rfl, rfl⟩

/-- C10: the two variants' key-normalization functions are extensionally
equal — for every file path and parameter set (source folder, target
folder, flatten flag) they return the same key. -/
theorem C10_variants_equal :
    ∀ (file : JStr) (params : Parameters),
      Spaces.normalizeKeyPath file params = Upload.normalizeKeyPath file params :=
  fun _ _ => rfl

/-- C5: with `flatten=true`, any two files under the source folder that
share the same base name receive the same key, regardless of directory
depth. -/
theorem C5_flatten_same_basename (params : Parameters) (f1 f2 : JStr)
    (hflat : params.digitalFlattenFolders = true)
    (hs1 : ∃ rest, f1 = params.digitalSourceFolder ++ rest)
    (hs2 : ∃ rest, f2 = params.digitalSourceFolder ++ rest)
    (hbase : posixBasename f1 = posixBasename f2) :
    Spaces.normalizeKeyPath f1 params = Spaces.normalizeKeyPath f2 params := by
  simp [Spaces.normalizeKeyPath, hflat, hbase]

/-- Witness for C5: `/s/a/x.txt` and `/s/b/c/x.txt` under `/s` with
`flatten=true` collide on the same key. -/
theorem C5_witness :
    Spaces.normalizeKeyPath "/s/a/x.txt".toList pC5w =
      Spaces.normalizeKeyPath "/s/b/c/x.txt".toList pC5w :=
  C5_flatten_same_basename pC5w _ _ (by decide) ⟨"/a/x.txt".toList, by decide⟩
    ⟨"/b/c/x.txt".toList, by decide⟩ (by decide)

/-- C6: content-type resolution — a non-empty explicit override is
returned unchanged; `a.pdf` resolves through the table to
`application/pdf`; an unknown extension falls back to
`application/octet-stream`; the override wins over the table. -/
theorem C6_contentType_resolution :
    (∀ (file ct : JStr), ct ≠ [] → Upload.resolveContentType ct file = ct) ∧
    Upload.resolveContentType [] "a.pdf".toList = "application/pdf".toList ∧
    Upload.resolveContentType [] "a.unknownext".toList = "application/octet-stream".toList ∧
    Upload.resolveContentType "text/plain".toList "a.pdf".toList = "text/plain".toList := by
  refine ⟨fun file ct hct => ?_, ?_, ?_, ?_⟩
  · unfold Upload.resolveContentType
    rw [if_pos hct]
  · decide
  · decide
  · decide

/-- Witness for C6: the override conjunct applied at a concrete file and
override. -/
theorem C6_witness :
    Upload.resolveContentType "text/css".toList "x".toList = "text/css".toList :=
  C6_contentType_resolution.1 "x".toList "text/css".toList (by decide)

/-- C2 counterexample: content-type resolution is not case-insensitive
in the extension — `a.PDF` and `a.pdf` resolve to different MIME types,
because the code looks up `path.extname(file)` without lowercasing. -/
theorem C2_counterexample_case_sensitive :
    Upload.resolveContentType [] "a.PDF".toList ≠
      Upload.resolveContentType [] "a.pdf".toList := by
  decide

/-- C2 amended: the extension is extracted by `path.extname` unchanged
(no lowercasing) and looked up by exact match, so `a.pdf` resolves to
`application/pdf` while `a.PDF` misses the all-lowercase table and
falls back to `application/octet-stream`. -/
theorem C2_amended_no_lowercase :
    posixExtname "a.PDF".toList = ".PDF".toList ∧
    Upload.resolveContentType [] "a.pdf".toList = "application/pdf".toList ∧
    Upload.resolveContentType [] "a.PDF".toList = "application/octet-stream".toList := by
  refine ⟨?_, ?_, ?_⟩ <;> decide

/-- C3 counterexample: with `targetFolder="/release"` the key for
`/build/out/a.txt` (a file under the source folder) is
`/release/a.txt`, which begins with a path separator. -/
theorem C3_counterexample_absolute_target :
    pC3.digitalSourceFolder ++ "/a.txt".toList = "/build/out/a.txt".toList ∧
    Spaces.normalizeKeyPath "/build/out/a.txt".toList pC3 = "/release/a.txt".toList ∧
    (Spaces.normalizeKeyPath "/build/out/a.txt".toList pC3).head? = some '/' := by
  refine ⟨?_, ?_, ?_⟩ <;> decide

/-- C3 amended: every key uses `'/'` as its only separator (no `'\'`
remains, unconditionally); and the key never begins with a separator
provided the target folder does not itself begin with one, neither the
file nor the target folder contains a backslash, and the stripped
relative path does not begin with a second separator. -/
theorem C3_amended_separator_invariants :
    ∀ (params : Parameters) (file : JStr),
      '\\' ∉ Spaces.normalizeKeyPath file params ∧
      (isAbsJ params.digitalTargetFolder = false →
       '\\' ∉ file →
       '\\' ∉ params.digitalTargetFolder →
       (relativeOf file params.digitalSourceFolder).head? ≠ some '/' →
       (Spaces.normalizeKeyPath file params).head? ≠ some '/') := by
  intro params file
  constructor
  · exact map_replSep_no_backslash _
  · intro habs hfile htgt hrel
    simp only [Spaces.normalizeKeyPath]
    cases hf : params.digitalFlattenFolders with
    | true =>
      rw [if_pos rfl]
      exact targetPath_head_safe habs htgt (posixBasename_head file)
        (fun hc => hfile (posixBasename_subset hc))
    | false =>
      rw [if_neg Bool.false_ne_true]
      exact targetPath_head_safe habs htgt hrel
        (fun hc => hfile (relativeOf_subset hc))

/-- Witness for C3 at a concrete input: the key of `/build/out/a.txt`
under target folder `release` has no backslash and no leading
separator. -/
theorem C3_witness :
    '\\' ∉ Spaces.normalizeKeyPath "/build/out/a.txt".toList pC1 ∧
    (Spaces.normalizeKeyPath "/build/out/a.txt".toList pC1).head? ≠ some '/' :=
  ⟨(C3_amended_separator_invariants pC1 "/build/out/a.txt".toList).1,
   (C3_amended_separator_invariants pC1 "/build/out/a.txt".toList).2
     (by decide) (by decide) (by decide) (by decide)⟩

/-- C4 counterexample: with `flatten=false` and no target folder, the
distinct files `/src/a\b.txt` and `/src/a/b.txt` under `/src` have
distinct relative paths but receive the same key `a/b.txt`, because
the final replacement turns the backslash into a separator. -/
theorem C4_counterexample_backslash_collision :
    pC4c.digitalSourceFolder ++ "/a\\b.txt".toList = "/src/a\\b.txt".toList ∧
    pC4c.digitalSourceFolder ++ "/a/b.txt".toList = "/src/a/b.txt".toList ∧
    ("/src/a\\b.txt".toList : JStr) ≠ "/src/a/b.txt".toList ∧
    relativeOf "/src/a\\b.txt".toList pC4c.digitalSourceFolder ≠
      relativeOf "/src/a/b.txt".toList pC4c.digitalSourceFolder ∧
    pC4c.digitalFlattenFolders = false ∧
    Spaces.normalizeKeyPath "/src/a\\b.txt".toList pC4c =
      Spaces.normalizeKeyPath "/src/a/b.txt".toList pC4c := by
  refine ⟨?_, ?_, ?_, ?_, ?_, ?_⟩ <;> decide

/-- C4 amended: with `flatten=false`, two files with distinct relative
paths receive distinct keys provided each relative path is free of
backslashes and, when a target folder is configured, each relative
path's `'/'`-separated segments are plain (nonempty and neither `"."`
nor `".."`), so that `path.join` does not renormalize them. -/
theorem C4_amended_injective (params : Parameters) (f1 f2 : JStr)
    (hflat : params.digitalFlattenFolders = false)
    (hb1 : '\\' ∉ relativeOf f1 params.digitalSourceFolder)
    (hb2 : '\\' ∉ relativeOf f2 params.digitalSourceFolder)
    (hp1 : params.digitalTargetFolder ≠ [] →
      plainSegs (relativeOf f1 params.digitalSourceFolder))
    (hp2 : params.digitalTargetFolder ≠ [] →
      plainSegs (relativeOf f2 params.digitalSourceFolder))
    (hne : relativeOf f1 params.digitalSourceFolder ≠
      relativeOf f2 params.digitalSourceFolder) :
    Spaces.normalizeKeyPath f1 params ≠ Spaces.normalizeKeyPath f2 params := by
  intro hkey
  have key_eq : ∀ f : JStr, Spaces.normalizeKeyPath f params =
      (if params.digitalTargetFolder ≠ [] then
        posixJoin params.digitalTargetFolder (relativeOf f params.digitalSourceFolder)
      else relativeOf f params.digitalSourceFolder).map replSep := by
    intro f
    simp only [Spaces.normalizeKeyPath]
    rw [if_neg (by rw [hflat]; exact Bool.false_ne_true)]
  rw [key_eq, key_eq] at hkey
  by_cases ht : params.digitalTargetFolder = []
  · rw [if_neg (by simp [ht]), if_neg (by simp [ht])] at hkey
    rw [map_replSep_id hb1, map_replSep_id hb2] at hkey
    exact hne hkey
  · rw [if_pos ht, if_pos ht] at hkey
    rw [posixJoin_plain ht (hp1 ht), posixJoin_plain ht (hp2 ht)] at hkey
    rw [List.map_append, List.map_append] at hkey
    have h2 := List.append_cancel_left hkey
    rw [map_replSep_id hb1, map_replSep_id hb2] at h2
    exact hne h2

/-- Witness for C4: `/s/a.txt` and `/s/b/c.txt` under `/s` with target
folder `t` receive distinct keys. -/
theorem C4_witness :
    Spaces.normalizeKeyPath "/s/a.txt".toList pC4w ≠
      Spaces.normalizeKeyPath "/s/b/c.txt".toList pC4w :=
  C4_amended_injective pC4w "/s/a.txt".toList "/s/b/c.txt".toList (by decide) (by decide)
    (by decide) (fun _ => by decide) (fun _ => by decide) (by decide)

/-- C7 counterexample: in the three-file fail-fast run the only failure
event emitted is `fileUploadFailed "boom"` — it carries the underlying
error but not the failing file's path (`console.error` passes
`tl.loc('FileUploadFailed')` with no file argument), and the file path
does not occur in the event's payload. -/
theorem C7_counterexample_failure_event_without_path :
    (Upload.init pC7 sendC7 [fC7a, fC7b, fC7c]).1.filter isFailedEv =
      [Event.fileUploadFailed "boom".toList] ∧
    ¬ fC7b <:+: "boom".toList := by
  refine ⟨?_, ?_⟩ <;> decide

/-- C7 amended: when one file's upload rejects, the loop logs a failure
event carrying the underlying error (not the file path), rethrows the
error and attempts no later file: with three files whose second upload
rejects, exactly one completion and one failure event are emitted, only
the first two requests are issued, and the error propagates. -/
theorem C7_amended_fail_fast (params : Parameters)
    (send : PutObjectRequest → Except JStr Unit) (f1 f2 f3 e : JStr)
    (h1 : send (Upload.requestFor params f1) = .ok ())
    (h2 : send (Upload.requestFor params f2) = .error e)
    (h31 : f3 ≠ f1) (h32 : f3 ≠ f2) :
    (Upload.init params send [f1, f2, f3]).1.countP isCompletedEv = 1 ∧
    (Upload.init params send [f1, f2, f3]).1.countP isFailedEv = 1 ∧
    (Upload.init params send [f1, f2, f3]).2.1 =
      [Upload.requestFor params f1, Upload.requestFor params f2] ∧
    (∀ r ∈ (Upload.init params send [f1, f2, f3]).2.1, r.Body ≠ f3) ∧
    (Upload.init params send [f1, f2, f3]).2.2 = Except.error e := by
  have hloop : Upload.uploadLoop params send [f1, f2, f3] =
      ([.uploadingFile f1 (Upload.normalizeKeyPath f1 params)
          (some (Upload.resolveContentType params.digitalContentType f1)),
        .fileUploadCompleted f1 (Upload.normalizeKeyPath f1 params),
        .uploadingFile f2 (Upload.normalizeKeyPath f2 params)
          (some (Upload.resolveContentType params.digitalContentType f2)),
        .fileUploadFailed e],
       [Upload.requestFor params f1, Upload.requestFor params f2], Except.error e) := by
    rw [Upload.uploadLoop]
    simp only [h1]
    rw [Upload.uploadLoop]
    simp only [h2]
  have hinit : Upload.init params send [f1, f2, f3] =
      (Event.uploadingFiles params.digitalSourceFolder
        (if params.digitalTargetFolder = [] then "root".toList else params.digitalTargetFolder)
        params.digitalBucket ::
       [.uploadingFile f1 (Upload.normalizeKeyPath f1 params)
          (some (Upload.resolveContentType params.digitalContentType f1)),
        .fileUploadCompleted f1 (Upload.normalizeKeyPath f1 params),
        .uploadingFile f2 (Upload.normalizeKeyPath f2 params)
          (some (Upload.resolveContentType params.digitalContentType f2)),
        .fileUploadFailed e],
       [Upload.requestFor params f1, Upload.requestFor params f2], Except.error e) := by
    rw [Upload.init, if_neg (by simp), hloop]
  rw [hinit]
  refine ⟨by simp [isCompletedEv, isFailedEv], by simp [isCompletedEv, isFailedEv], rfl, ?_, rfl⟩
  intro r hr
  rcases List.mem_cons.mp hr with rfl | hr'
  · exact fun hc => h31 hc.symm
  · rcases List.mem_cons.mp hr' with rfl | hr''
    · exact fun hc => h32 hc.symm
    · simp at hr''

/-- Witness for C7: the concrete three-file scenario where the second
upload rejects with `boom`. -/
theorem C7_witness :
    (Upload.init pC7 sendC7 [fC7a, fC7b, fC7c]).1.countP isCompletedEv = 1 ∧
    (Upload.init pC7 sendC7 [fC7a, fC7b, fC7c]).1.countP isFailedEv = 1 ∧
    (Upload.init pC7 sendC7 [fC7a, fC7b, fC7c]).2.1 =
      [Upload.requestFor pC7 fC7a, Upload.requestFor pC7 fC7b] ∧
    (∀ r ∈ (Upload.init pC7 sendC7 [fC7a, fC7b, fC7c]).2.1, r.Body ≠ fC7c) ∧
    (Upload.init pC7 sendC7 [fC7a, fC7b, fC7c]).2.2 = Except.error "boom".toList :=
  C7_amended_fail_fast pC7 sendC7 fC7a fC7b fC7c "boom".toList (by rfl) (by rfl)
    (by decide) (by decide)

/-- C8 counterexample: on an empty file list the minimal variant
(`Spaces.upload`) emits no "no files found" event — it logs only the
start event — while the typed variant (`Upload.init`) does emit it, so
the claimed behavior does not hold in both variants. -/
theorem C8_counterexample_minimal_no_event :
    (Spaces.upload pC7 sendOk []).1.filter isFileNotFoundEv = [] ∧
    (Upload.init pC7 sendOk []).1.filter isFileNotFoundEv =
      [Event.fileNotFound "/s".toList] ∧
    (Spaces.upload pC7 sendOk []).2.1 = [] ∧
    (Spaces.upload pC7 sendOk []).2.2 = Except.ok () := by
  refine ⟨?_, ?_, ?_, ?_⟩ <;> rfl

/-- C8 amended: on an empty file list both variants issue zero upload
requests and return success; the typed variant additionally emits the
"no files found" event, while the minimal variant emits only the start
event and no such event. -/
theorem C8_amended_empty_list (params : Parameters)
    (send : PutObjectRequest → Except JStr Unit) :
    Upload.init params send [] =
      ([Event.uploadingFiles params.digitalSourceFolder
          (if params.digitalTargetFolder = [] then "root".toList else params.digitalTargetFolder)
          params.digitalBucket,
        Event.fileNotFound params.digitalSourceFolder], [], Except.ok ()) ∧
    Spaces.upload params send [] =
      ([Event.uploadingFiles params.digitalSourceFolder
          (if params.digitalTargetFolder = [] then "root".toList else params.digitalTargetFolder)
          params.digitalBucket], [], Except.ok ()) :=
  ⟨rfl, rfl⟩
